import Mathlib

/-!
Verification of `fastNLP/core/losses.py`.

The module is embedded shallowly:
* Python runtime values that the loss layer inspects are the inductive `Val`;
  tensors carry only their shape (`torch.Tensor.size()`), which is all the
  code under verification looks at.  Calls into the external torch library
  whose results the code never inspects are represented by the uninterpreted
  constructor `Val.ext`.
* Python `dict`s are association lists with Python's update semantics:
  updating an existing key keeps its position, a new key is appended.
* raising an exception is returning `Except.error`; mutation of a `LossBase`
  object is explicit state passing (the call returns the updated object).
-/

set_option autoImplicit false

/-- A Python runtime value, as far as `losses.py` inspects values:
a `torch.Tensor` is identified by its shape (`size()`), and results of
opaque torch operations are `Val.ext` terms. -/
inductive Val where
  | tensor (shape : List Nat)
  | vint (n : Int)
  | vstr (s : String)
  | vnone
  | ext (tag : String) (a b : Val)
  deriving Repr, DecidableEq

/-- A Python `dict` with `String` keys, in insertion order. -/
abbrev Dict (α : Type) : Type := List (String × α)

/-- `d[k] = v` for a Python dict: replace the first binding of `k` in place,
otherwise append the new binding at the end (Python keeps insertion order). -/
def dinsert {α : Type} : Dict α → String → α → Dict α
  | [], k, v => [(k, v)]
  | (a, b) :: t, k, v => if a = k then (k, v) :: t else (a, b) :: dinsert t k v

/-- `d.get(k)` for a Python dict: the value of the first binding of `k`. -/
def dlookup {α : Type} : Dict α → String → Option α
  | [], _ => none
  | (a, b) :: t, k => if a = k then some b else dlookup t k

/-- `k in d` for a Python dict. -/
def memKey {α : Type} (d : Dict α) (k : String) : Bool :=
  (dlookup d k).isSome

/-- The value of the LAST binding of `k` in an association list; this is what
a key of a dict built by successive `update`s ends up bound to. -/
def lastVal {α : Type} : Dict α → String → Option α
  | [], _ => none
  | (a, b) :: t, k =>
    match lastVal t k with
    | some v => some v
    | none => if a = k then some b else none

/-- `acc.update(l)` for Python dicts: insert every binding of `l` into `acc`
in order. -/
def updAll {α : Type} (acc : Dict α) (l : Dict α) : Dict α :=
  l.foldl (fun a kv => dinsert a kv.1 kv.2) acc

/-- The keys of an association list are pairwise distinct (always true of a
real Python dict). -/
def nodupKeys {α : Type} (d : Dict α) : Prop :=
  (d.map Prod.fst).Nodup

theorem dlookup_dinsert {α : Type} (d : Dict α) (k k' : String) (v : α) :
    dlookup (dinsert d k v) k' = if k = k' then some v else dlookup d k' := by
  induction d with
  | nil => rfl
  | cons hd t ih =>
    obtain ⟨a, b⟩ := hd
    by_cases hak : a = k
    · subst hak
      simp only [dinsert, if_pos rfl, dlookup]
      by_cases h : a = k'
      · simp [h]
      · simp [h]
    · simp only [dinsert, if_neg hak, dlookup, ih]
      by_cases h1 : a = k'
      · have hkk : ¬ k = k' := fun hh => hak (h1.trans hh.symm)
        simp [h1, hkk]
      · simp [h1]

theorem dlookup_updAll {α : Type} (l : Dict α) (acc : Dict α) (k : String) :
    dlookup (updAll acc l) k =
      match lastVal l k with
      | some v => some v
      | none => dlookup acc k := by
  induction l generalizing acc with
  | nil => simp [updAll, lastVal]
  | cons hd t ih =>
    obtain ⟨a, b⟩ := hd
    simp only [updAll, List.foldl_cons] at *
    rw [ih]
    simp only [lastVal]
    cases hlv : lastVal t k with
    | some v => simp
    | none =>
      simp only [dlookup_dinsert]
      by_cases h : a = k
      · simp [h]
      · simp [h]

theorem lastVal_isSome {α : Type} (l : Dict α) (k : String) :
    (lastVal l k).isSome = (dlookup l k).isSome := by
  induction l with
  | nil => simp [lastVal, dlookup]
  | cons hd t ih =>
    obtain ⟨a, b⟩ := hd
    simp only [lastVal, dlookup]
    cases hlv : lastVal t k with
    | some v =>
      have : (dlookup t k).isSome = true := by rw [← ih, hlv]; rfl
      by_cases h : a = k
      · simp [h]
      · simp [h, ← ih, hlv]
    | none =>
      by_cases h : a = k
      · simp [h]
      · simp [h, ← ih, hlv]

theorem dlookup_eq_none_of_not_mem {α : Type} (l : Dict α) (k : String)
    (h : k ∉ l.map Prod.fst) : dlookup l k = none := by
  induction l with
  | nil => rfl
  | cons hd t ih =>
    obtain ⟨a, b⟩ := hd
    simp only [List.map_cons, List.mem_cons] at h
    push_neg at h
    simp only [dlookup, if_neg (fun hh : a = k => h.1 hh.symm)]
    exact ih h.2

theorem lastVal_eq_dlookup_of_nodup {α : Type} (l : Dict α) (k : String)
    (h : nodupKeys l) : lastVal l k = dlookup l k := by
  induction l with
  | nil => rfl
  | cons hd t ih =>
    obtain ⟨a, b⟩ := hd
    have hnd : nodupKeys t := (List.nodup_cons.mp h).2
    have hna : a ∉ t.map Prod.fst := (List.nodup_cons.mp h).1
    simp only [lastVal, dlookup]
    by_cases hak : a = k
    · subst hak
      rw [ih hnd, dlookup_eq_none_of_not_mem t a hna]
    · simp only [if_neg hak]
      rw [← ih hnd]
      cases lastVal t k <;> rfl

/-- Modelled from the spec: `CheckRes` of `fastNLP.core.utils` is not under
src/.  Per the spec it is the record of the name-reconciliation check,
carrying the detected missing and duplicated keys (the remaining fields are
passed as empty lists by `losses.py`). -/
structure CheckRes where
  missing : List String
  unused : List String
  duplicated : List String
  required : List String
  all_needed : List String
  varargsF : List String := []
  deriving Repr, DecidableEq

/-- The exceptions `losses.py` raises: `RuntimeError`, `TypeError`, and
`CheckError` of `fastNLP.core.utils` (modelled from the spec: it wraps a
`CheckRes` describing the failed missing/duplicated-key detection). -/
inductive PyErr where
  | runtimeError (msg : String)
  | typeError (msg : String)
  | checkError (res : CheckRes)
  deriving Repr, DecidableEq

/-- Modelled from the spec: `_get_arg_list` of `fastNLP.core.utils` is not
under src/.  Per the spec it reads a loss function's declared
formal-parameter names; it yields the parameters without defaults (`args`),
the keyword-defaulted parameters with their default values (`defaults`),
and whether the function declares a `*`-parameter (`varargs`).  `args` is
always a list (never Python `None`), so the dead `args is None` branch of
`LossBase.__call__` is not represented. -/
structure GetLossSig where
  args : List String
  defaults : Option (Dict Val)
  varargs : Bool

/-- The names of the keyword-defaulted parameters of a signature. -/
def defaultNames (sig : GetLossSig) : List String :=
  match sig.defaults with
  | none => []
  | some ds => ds.map Prod.fst

/-- The state of a `LossBase` object (`losses.py` lines 13-17), together
with the signature and the semantics of its `get_loss` member: `fn` maps a
keyword-argument binding to the returned value. -/
structure LossBase where
  param_map : Dict String
  _checked : Bool
  sig : GetLossSig
  fn : Dict Val → Val

/-- One of the two loops of lines 42-48 of `losses.py`: for each name in
`names`, `if keys not in param_map: param_map.update(\x7bkeys: keys\x7d)`. -/
def selfExtend (pm : Dict String) (names : List String) : Dict String :=
  names.foldl (fun m k => if (dlookup m k).isSome then m else dinsert m k k) pm

/-- Lines 41-49 of `losses.py`: extend `param_map` so that every formal
parameter name and every keyword-defaulted parameter name that is not yet a
key of `param_map` is mapped to itself. -/
def extendParamMap (pm : Dict String) (sig : GetLossSig) : Dict String :=
  selfExtend (selfExtend pm sig.args) (defaultNames sig)

/-- Line 51 of `losses.py`: the reversed param map
`\x7bval: key for key, val in param_map.items()\x7d` (a later entry wins). -/
def reversedParamMap (pm : Dict String) : Dict String :=
  pm.foldl (fun m kv => dinsert m kv.2 kv.1) []

/-- Lines 54-59 of `losses.py`: the keys of `output_dict` that also occur in
`target_dict`, in `output_dict` order. -/
def duplicatedKeys (output_dict target_dict : Dict Val) : List String :=
  (output_dict.map Prod.fst).filter (fun k => memKey target_dict k)

/-- Lines 61-65 of `losses.py`: `param_val_dict`, the empty dict updated
with all bindings of `output_dict` and then all bindings of `target_dict`. -/
def mergeDicts (output_dict target_dict : Dict Val) : Dict Val :=
  updAll (updAll [] output_dict) target_dict

/-- Lines 67-70 of `losses.py`: the formal parameters (in declaration
order) whose name under `param_map` is not a key of `param_val_dict`.  When
this runs, `param_map` covers all of `args`, so the `none` fallback is
unreachable. -/
def missingKeys (args : List String) (pm : Dict String) (merged : Dict Val) :
    List String :=
  args.filter (fun k =>
    match dlookup pm k with
    | some v => !(memKey merged v)
    | none => true)

/-- Binding of the non-defaulted formal parameters: each `p` in `args` that
has a value under its mapped name in `merged` is bound to that value. -/
def resolveFold (pm : Dict String) (merged : Dict Val) (acc : Dict Val)
    (args : List String) : Dict Val :=
  args.foldl
    (fun acc p =>
      match dlookup merged ((dlookup pm p).getD p) with
      | some v => dinsert acc p v
      | none => acc) acc

/-- Binding of the keyword-defaulted parameters: each is bound to the value
under its mapped name in `merged`, or to its declared default when absent. -/
def defaultsFold (pm : Dict String) (merged : Dict Val) (acc : Dict Val)
    (ds : Dict Val) : Dict Val :=
  ds.foldl
    (fun acc kd =>
      dinsert acc kd.1 ((dlookup merged ((dlookup pm kd.1).getD kd.1)).getD kd.2))
    acc

/-- Modelled from the spec: `_map_args` and `_build_args` of
`fastNLP.core.utils` are not under src/.  Per the spec they resolve the
keyword arguments of `get_loss` through the parameter map: each declared
formal parameter `p` receives the value stored under the name `param_map[p]`
in the merged dictionary, and a keyword-defaulted parameter whose mapped
name is absent keeps its default value. -/
def resolveArgs (pm : Dict String) (merged : Dict Val) (sig : GetLossSig) :
    Dict Val :=
  let fromArgs := resolveFold pm merged [] sig.args
  match sig.defaults with
  | none => fromArgs
  | some ds => defaultsFold pm merged fromArgs ds

/-- `isinstance(v, torch.Tensor)`. -/
def isTensor : Val → Bool
  | .tensor _ => true
  | _ => false

/-- `isinstance(v, torch.Tensor) and len(v.size()) == 0`: a scalar tensor. -/
def isScalarTensor : Val → Bool
  | .tensor shape => shape.isEmpty
  | _ => false

/-- Line 40 of `losses.py`: `self._checked = self._checked and not force_check`,
the checked flag in effect for the rest of the call. -/
def checkedAtCall (L : LossBase) (force_check : Bool) : Bool :=
  L._checked && !force_check

/-- The `param_map` in effect after lines 41-49: extended exactly when the
call runs with checking enabled. -/
def callParamMap (L : LossBase) (force_check : Bool) : Dict String :=
  if checkedAtCall L force_check then L.param_map
  else extendParamMap L.param_map L.sig

/-- The `duplicated` list of lines 54-59 (empty when checking is skipped). -/
def callDuplicated (L : LossBase) (output_dict target_dict : Dict Val)
    (force_check : Bool) : List String :=
  if checkedAtCall L force_check then []
  else duplicatedKeys output_dict target_dict

/-- The `missing` list of lines 67-70 (empty when checking is skipped). -/
def callMissing (L : LossBase) (output_dict target_dict : Dict Val)
    (force_check : Bool) : List String :=
  if checkedAtCall L force_check then []
  else missingKeys L.sig.args (callParamMap L force_check)
    (mergeDicts output_dict target_dict)

/-- Lines 85-88 of `losses.py`: accept the loss only when it is a
zero-dimensional tensor; otherwise raise `RuntimeError` (one message for a
non-tensor, one for a tensor of nonzero dimension). -/
def checkLossResult (loss : Val) : Except PyErr Val :=
  if isScalarTensor loss then .ok loss
  else if !(isTensor loss) then
    .error (.runtimeError "loss ERROR: loss except a torch.Tensor but get another type")
  else
    .error (.runtimeError "loss ERROR: the size of loss except torch.Size of nothing")

/-- `LossBase.__call__(output_dict, target_dict, force_check)`
(`losses.py` lines 22-90).  Returns the outcome (`Except`) together with
the post-state of the object (its `param_map` and `_checked` mutations
persist even when an exception is raised after them). -/
def LossBase.call (L : LossBase) (output_dict target_dict : Dict Val)
    (force_check : Bool) : Except PyErr Val × LossBase :=
  if L.sig.varargs then
    (.error (.runtimeError "the function should not use Positional Argument"), L)
  else
    let pm1 := callParamMap L force_check
    let dup := callDuplicated L output_dict target_dict force_check
    let miss := callMissing L output_dict target_dict force_check
    if 0 < dup.length ∨ 0 < miss.length then
      (.error (.checkError
          { missing := miss, unused := [], duplicated := dup,
            required := [], all_needed := [] }),
       { L with param_map := pm1, _checked := checkedAtCall L force_check })
    else
      let L2 : LossBase := { L with param_map := pm1, _checked := true }
      let loss := L.fn (resolveArgs pm1 (mergeDicts output_dict target_dict) L.sig)
      (checkLossResult loss, L2)

theorem selfExtend_nil (pm : Dict String) : selfExtend pm [] = pm := rfl

theorem selfExtend_cons (pm : Dict String) (a : String) (t : List String) :
    selfExtend pm (a :: t) =
      selfExtend (if (dlookup pm a).isSome then pm else dinsert pm a a) t := rfl

theorem dlookup_selfExtend_of_isSome (names : List String) (pm : Dict String)
    (k : String) (h : (dlookup pm k).isSome) :
    dlookup (selfExtend pm names) k = dlookup pm k := by
  induction names generalizing pm with
  | nil => rfl
  | cons a t ih =>
    rw [selfExtend_cons]
    by_cases ha : (dlookup pm a).isSome
    · rw [if_pos ha]; exact ih pm h
    · rw [if_neg ha]
      have hka : ¬ a = k := by
        intro hh; rw [hh] at ha; exact ha h
      have hl : dlookup (dinsert pm a a) k = dlookup pm k := by
        rw [dlookup_dinsert, if_neg hka]
      rw [ih (dinsert pm a a) (by rw [hl]; exact h), hl]

theorem dlookup_selfExtend_of_mem (names : List String) (pm : Dict String)
    (k : String) (h : k ∈ names) :
    dlookup (selfExtend pm names) k = some ((dlookup pm k).getD k) := by
  induction names generalizing pm with
  | nil => cases h
  | cons a t ih =>
    rw [selfExtend_cons]
    by_cases hka : k = a
    · subst hka
      by_cases hs : (dlookup pm k).isSome
      · rw [if_pos hs]
        obtain ⟨v, hv⟩ := Option.isSome_iff_exists.mp hs
        rw [dlookup_selfExtend_of_isSome t pm k hs, hv]
        rfl
      · rw [if_neg hs]
        have h1 : dlookup (dinsert pm k k) k = some k := by
          rw [dlookup_dinsert, if_pos rfl]
        rw [dlookup_selfExtend_of_isSome t (dinsert pm k k) k (by rw [h1]; rfl), h1,
          Option.not_isSome_iff_eq_none.mp hs]
        rfl
    · have ht : k ∈ t := by
        rcases List.mem_cons.mp h with h1 | h1
        · exact absurd h1 hka
        · exact h1
      by_cases ha : (dlookup pm a).isSome
      · rw [if_pos ha]; exact ih pm ht
      · rw [if_neg ha]
        have hl : dlookup (dinsert pm a a) k = dlookup pm k := by
          rw [dlookup_dinsert, if_neg (fun hh : a = k => hka hh.symm)]
        rw [ih (dinsert pm a a) ht, hl]

theorem dlookup_selfExtend_of_not_mem (names : List String) (pm : Dict String)
    (k : String) (h : k ∉ names) :
    dlookup (selfExtend pm names) k = dlookup pm k := by
  induction names generalizing pm with
  | nil => rfl
  | cons a t ih =>
    simp only [List.mem_cons] at h
    push_neg at h
    rw [selfExtend_cons]
    by_cases ha : (dlookup pm a).isSome
    · rw [if_pos ha]; exact ih pm h.2
    · rw [if_neg ha]
      have hl : dlookup (dinsert pm a a) k = dlookup pm k := by
        rw [dlookup_dinsert, if_neg (fun hh : a = k => h.1 hh.symm)]
      rw [ih (dinsert pm a a) h.2, hl]

theorem dlookup_extendParamMap_of_mem (pm : Dict String) (sig : GetLossSig)
    (k : String) (h : k ∈ sig.args ∨ k ∈ defaultNames sig) :
    dlookup (extendParamMap pm sig) k = some ((dlookup pm k).getD k) := by
  unfold extendParamMap
  by_cases hd : k ∈ defaultNames sig
  · rw [dlookup_selfExtend_of_mem _ _ _ hd]
    by_cases ha : k ∈ sig.args
    · rw [dlookup_selfExtend_of_mem _ _ _ ha]
      simp
    · rw [dlookup_selfExtend_of_not_mem _ _ _ ha]
  · have ha : k ∈ sig.args := by
      rcases h with h1 | h1
      · exact h1
      · exact absurd h1 hd
    rw [dlookup_selfExtend_of_isSome _ _ _
        (by rw [dlookup_selfExtend_of_mem _ _ _ ha]; rfl),
      dlookup_selfExtend_of_mem _ _ _ ha]

theorem dlookup_extendParamMap_of_isSome (pm : Dict String) (sig : GetLossSig)
    (k : String) (h : (dlookup pm k).isSome) :
    dlookup (extendParamMap pm sig) k = dlookup pm k := by
  unfold extendParamMap
  rw [dlookup_selfExtend_of_isSome _ _ _
      (by rw [dlookup_selfExtend_of_isSome _ _ _ h]; exact h),
    dlookup_selfExtend_of_isSome _ _ _ h]

theorem resolveFold_cons (pm : Dict String) (merged : Dict Val) (acc : Dict Val)
    (p : String) (t : List String) :
    resolveFold pm merged acc (p :: t) =
      resolveFold pm merged
        (match dlookup merged ((dlookup pm p).getD p) with
         | some v => dinsert acc p v
         | none => acc) t := rfl

theorem dlookup_resolveFold_of_not_mem (args : List String) (pm : Dict String)
    (merged : Dict Val) (acc : Dict Val) (p : String) (h : p ∉ args) :
    dlookup (resolveFold pm merged acc args) p = dlookup acc p := by
  induction args generalizing acc with
  | nil => rfl
  | cons a t ih =>
    simp only [List.mem_cons] at h
    push_neg at h
    rw [resolveFold_cons]
    cases hm : dlookup merged ((dlookup pm a).getD a) with
    | some v =>
      rw [ih (dinsert acc a v) h.2, dlookup_dinsert,
        if_neg (fun hh : a = p => h.1 hh.symm)]
    | none => exact ih acc h.2

theorem dlookup_resolveFold_of_mem (args : List String) (pm : Dict String)
    (merged : Dict Val) (acc : Dict Val) (p : String) (v : Val) (h : p ∈ args)
    (hv : dlookup merged ((dlookup pm p).getD p) = some v) :
    dlookup (resolveFold pm merged acc args) p = some v := by
  induction args generalizing acc with
  | nil => cases h
  | cons a t ih =>
    rw [resolveFold_cons]
    by_cases hpt : p ∈ t
    · cases hm : dlookup merged ((dlookup pm a).getD a) with
      | some w => exact ih (dinsert acc a w) hpt
      | none => exact ih acc hpt
    · have hpa : p = a := by
        rcases List.mem_cons.mp h with h1 | h1
        · exact h1
        · exact absurd h1 hpt
      subst hpa
      rw [hv, dlookup_resolveFold_of_not_mem t pm merged _ p hpt,
        dlookup_dinsert, if_pos rfl]

theorem defaultsFold_cons (pm : Dict String) (merged : Dict Val) (acc : Dict Val)
    (kd : String × Val) (t : Dict Val) :
    defaultsFold pm merged acc (kd :: t) =
      defaultsFold pm merged
        (dinsert acc kd.1 ((dlookup merged ((dlookup pm kd.1).getD kd.1)).getD kd.2))
        t := rfl

theorem dlookup_defaultsFold_of_not_mem (ds : Dict Val) (pm : Dict String)
    (merged : Dict Val) (acc : Dict Val) (p : String)
    (h : p ∉ ds.map Prod.fst) :
    dlookup (defaultsFold pm merged acc ds) p = dlookup acc p := by
  induction ds generalizing acc with
  | nil => rfl
  | cons kd t ih =>
    simp only [List.map_cons, List.mem_cons] at h
    push_neg at h
    rw [defaultsFold_cons, ih _ h.2, dlookup_dinsert,
      if_neg (fun hh : kd.1 = p => h.1 hh.symm)]

theorem dlookup_defaultsFold_of_mem (ds : Dict Val) (pm : Dict String)
    (merged : Dict Val) (acc : Dict Val) (p : String)
    (h : p ∈ ds.map Prod.fst) :
    ∃ d, dlookup (defaultsFold pm merged acc ds) p =
      some ((dlookup merged ((dlookup pm p).getD p)).getD d) := by
  induction ds generalizing acc with
  | nil => cases h
  | cons kd t ih =>
    rw [defaultsFold_cons]
    by_cases hpt : p ∈ t.map Prod.fst
    · exact ih _ hpt
    · have hpa : p = kd.1 := by
        rcases List.mem_cons.mp h with h1 | h1
        · exact h1
        · exact absurd h1 hpt
      subst hpa
      refine ⟨kd.2, ?_⟩
      rw [dlookup_defaultsFold_of_not_mem t pm merged _ _ hpt,
        dlookup_dinsert, if_pos rfl]

theorem dlookup_resolveArgs_of_mem (sig : GetLossSig) (pm : Dict String)
    (merged : Dict Val) (p : String) (v : Val)
    (h : p ∈ sig.args ∨ p ∈ defaultNames sig)
    (hv : dlookup merged ((dlookup pm p).getD p) = some v) :
    dlookup (resolveArgs pm merged sig) p = some v := by
  unfold resolveArgs
  cases hds : sig.defaults with
  | none =>
    have ha : p ∈ sig.args := by
      rcases h with h1 | h1
      · exact h1
      · simp [defaultNames, hds] at h1
    exact dlookup_resolveFold_of_mem sig.args pm merged [] p v ha hv
  | some ds =>
    by_cases hd : p ∈ ds.map Prod.fst
    · obtain ⟨d, hdd⟩ := dlookup_defaultsFold_of_mem ds pm merged
        (resolveFold pm merged [] sig.args) p hd
      rw [hdd, hv]
      rfl
    · have ha : p ∈ sig.args := by
        rcases h with h1 | h1
        · exact h1
        · simp only [defaultNames, hds] at h1
          exact absurd h1 hd
      rw [dlookup_defaultsFold_of_not_mem ds pm merged _ p hd]
      exact dlookup_resolveFold_of_mem sig.args pm merged [] p v ha hv

theorem mem_duplicatedKeys (output_dict target_dict : Dict Val) (k : String) :
    k ∈ duplicatedKeys output_dict target_dict ↔
      k ∈ output_dict.map Prod.fst ∧ memKey target_dict k = true := by
  simp [duplicatedKeys, List.mem_filter]

theorem mem_missingKeys (args : List String) (pm : Dict String)
    (merged : Dict Val) (p : String) :
    p ∈ missingKeys args pm merged ↔
      p ∈ args ∧
        (match dlookup pm p with
         | some v => memKey merged v = false
         | none => True) := by
  simp only [missingKeys, List.mem_filter]
  cases h : dlookup pm p <;> simp [h]

theorem LossBase.call_of_check_failure (L : LossBase)
    (output_dict target_dict : Dict Val) (force_check : Bool)
    (hv : L.sig.varargs = false)
    (hpos : 0 < (callDuplicated L output_dict target_dict force_check).length ∨
            0 < (callMissing L output_dict target_dict force_check).length) :
    L.call output_dict target_dict force_check =
      (.error (.checkError
        { missing := callMissing L output_dict target_dict force_check,
          unused := [],
          duplicated := callDuplicated L output_dict target_dict force_check,
          required := [], all_needed := [] }),
       { L with param_map := callParamMap L force_check,
                _checked := checkedAtCall L force_check }) := by
  unfold LossBase.call
  rw [hv]
  rw [if_neg (by simp)]
  rw [if_pos hpos]

theorem LossBase.call_of_check_success (L : LossBase)
    (output_dict target_dict : Dict Val) (force_check : Bool)
    (hv : L.sig.varargs = false)
    (hd : callDuplicated L output_dict target_dict force_check = [])
    (hm : callMissing L output_dict target_dict force_check = []) :
    L.call output_dict target_dict force_check =
      (checkLossResult (L.fn (resolveArgs (callParamMap L force_check)
          (mergeDicts output_dict target_dict) L.sig)),
       { L with param_map := callParamMap L force_check, _checked := true }) := by
  unfold LossBase.call
  rw [hv]
  rw [if_neg (by simp)]
  rw [hd, hm]
  rw [if_neg (by simp)]

theorem LossBase.call_post_param_map (L : LossBase)
    (output_dict target_dict : Dict Val) (force_check : Bool)
    (hv : L.sig.varargs = false) :
    (L.call output_dict target_dict force_check).2.param_map =
      callParamMap L force_check := by
  unfold LossBase.call
  rw [hv, if_neg (by simp)]
  by_cases hcond : 0 < (callDuplicated L output_dict target_dict force_check).length ∨
      0 < (callMissing L output_dict target_dict force_check).length
  · rw [if_pos hcond]
  · rw [if_neg hcond]

/-- Claim C3: when the `_checked` flag is false at entry, `__call__` raises
`CheckError` whenever some key occurs in both `output_dict` and
`target_dict` — whether or not any formal parameter needs it — and the
raised `CheckRes` lists exactly the shared keys in its `duplicated` field;
`get_loss` is not invoked (the call produces the error instead of a loss
value). -/
theorem claim_C3_duplicated_raises (L : LossBase)
    (output_dict target_dict : Dict Val) (force_check : Bool)
    (hv : L.sig.varargs = false) (hc : L._checked = false) (k0 : String)
    (hk : k0 ∈ output_dict.map Prod.fst) (ht : memKey target_dict k0 = true) :
    (L.call output_dict target_dict force_check).1 =
      .error (.checkError
        { missing := callMissing L output_dict target_dict force_check,
          unused := [],
          duplicated := duplicatedKeys output_dict target_dict,
          required := [], all_needed := [] }) ∧
    (∀ k, k ∈ duplicatedKeys output_dict target_dict ↔
      k ∈ output_dict.map Prod.fst ∧ memKey target_dict k = true) := by
  have hcc : checkedAtCall L force_check = false := by
    simp [checkedAtCall, hc]
  have hdup : callDuplicated L output_dict target_dict force_check =
      duplicatedKeys output_dict target_dict := by
    simp [callDuplicated, hcc]
  have hk0 : k0 ∈ duplicatedKeys output_dict target_dict :=
    (mem_duplicatedKeys _ _ _).mpr ⟨hk, ht⟩
  have hpos : 0 < (callDuplicated L output_dict target_dict force_check).length := by
    rw [hdup]
    exact List.length_pos.mpr (List.ne_nil_of_mem hk0)
  refine ⟨?_, fun k => mem_duplicatedKeys _ _ _⟩
  rw [LossBase.call_of_check_failure L _ _ _ hv (Or.inl hpos), hdup]

/-- Claim C2: when the `_checked` flag is false at entry, `__call__` raises
`CheckError` whenever some declared formal parameter of `get_loss` maps
through `param_map` to a name absent from the key set of the union of
`output_dict` and `target_dict`; the raised `CheckRes` lists exactly those
formal-parameter names in its `missing` field, `get_loss` is not invoked
(the call produces the error instead of a loss value), and `_checked`
remains false. -/
theorem claim_C2_missing_raises (L : LossBase)
    (output_dict target_dict : Dict Val) (force_check : Bool)
    (hv : L.sig.varargs = false) (hc : L._checked = false) (p0 : String)
    (hp0 : p0 ∈ L.sig.args)
    (habs : memKey (mergeDicts output_dict target_dict)
      ((dlookup L.param_map p0).getD p0) = false) :
    (L.call output_dict target_dict force_check).1 =
      .error (.checkError
        { missing := missingKeys L.sig.args (extendParamMap L.param_map L.sig)
            (mergeDicts output_dict target_dict),
          unused := [],
          duplicated := callDuplicated L output_dict target_dict force_check,
          required := [], all_needed := [] }) ∧
    (∀ p, p ∈ missingKeys L.sig.args (extendParamMap L.param_map L.sig)
        (mergeDicts output_dict target_dict) ↔
      p ∈ L.sig.args ∧ memKey (mergeDicts output_dict target_dict)
        ((dlookup L.param_map p).getD p) = false) ∧
    (L.call output_dict target_dict force_check).2._checked = false := by
  have hcc : checkedAtCall L force_check = false := by
    simp [checkedAtCall, hc]
  have hmiss : callMissing L output_dict target_dict force_check =
      missingKeys L.sig.args (extendParamMap L.param_map L.sig)
        (mergeDicts output_dict target_dict) := by
    simp [callMissing, callParamMap, hcc]
  have hchar : ∀ p, p ∈ missingKeys L.sig.args (extendParamMap L.param_map L.sig)
      (mergeDicts output_dict target_dict) ↔
        p ∈ L.sig.args ∧ memKey (mergeDicts output_dict target_dict)
          ((dlookup L.param_map p).getD p) = false := by
    intro p
    rw [mem_missingKeys]
    constructor
    · rintro ⟨hpa, hrest⟩
      refine ⟨hpa, ?_⟩
      rw [dlookup_extendParamMap_of_mem _ _ _ (Or.inl hpa)] at hrest
      exact hrest
    · rintro ⟨hpa, hmem⟩
      refine ⟨hpa, ?_⟩
      rw [dlookup_extendParamMap_of_mem _ _ _ (Or.inl hpa)]
      exact hmem
  have hp0m : p0 ∈ missingKeys L.sig.args (extendParamMap L.param_map L.sig)
      (mergeDicts output_dict target_dict) := (hchar p0).mpr ⟨hp0, habs⟩
  have hpos : 0 < (callMissing L output_dict target_dict force_check).length := by
    rw [hmiss]
    exact List.length_pos.mpr (List.ne_nil_of_mem hp0m)
  refine ⟨?_, hchar, ?_⟩
  · rw [LossBase.call_of_check_failure L _ _ _ hv (Or.inr hpos), hmiss]
  · rw [LossBase.call_of_check_failure L _ _ _ hv (Or.inr hpos)]
    exact hcc

/-- Claim C4: on every call with checking enabled, `param_map` is extended
so that each formal-argument name and each keyword-defaulted argument name
of `get_loss` not already a key of `param_map` becomes mapped to itself,
while every mapping supplied beforehand is left unchanged. -/
theorem claim_C4_param_map_extension (L : LossBase)
    (output_dict target_dict : Dict Val) (force_check : Bool)
    (hv : L.sig.varargs = false)
    (hc : checkedAtCall L force_check = false) :
    (∀ k, k ∈ L.sig.args ∨ k ∈ defaultNames L.sig →
      dlookup (L.call output_dict target_dict force_check).2.param_map k =
        some ((dlookup L.param_map k).getD k)) ∧
    (∀ k, (dlookup L.param_map k).isSome →
      dlookup (L.call output_dict target_dict force_check).2.param_map k =
        dlookup L.param_map k) := by
  rw [LossBase.call_post_param_map L _ _ _ hv]
  have hpm : callParamMap L force_check = extendParamMap L.param_map L.sig := by
    simp [callParamMap, hc]
  rw [hpm]
  exact ⟨fun k hk => dlookup_extendParamMap_of_mem _ _ _ hk,
    fun k hk => dlookup_extendParamMap_of_isSome _ _ _ hk⟩

/-- A concrete `get_loss` signature: `get_loss(pred, target, reduce=1)`. -/
def wSig : GetLossSig :=
  { args := ["pred", "target"], defaults := some [("reduce", .vint 1)],
    varargs := false }

/-- A concrete unchecked `LossBase` with one explicit mapping
`pred -> output`. -/
def wLoss : LossBase :=
  { param_map := [("pred", "output")], _checked := false, sig := wSig,
    fn := fun _ => Val.tensor [] }

def wOut3 : Dict Val := [("output", Val.tensor [2]), ("x", Val.vint 1)]

def wTgt3 : Dict Val := [("target", Val.tensor [2]), ("x", Val.vint 2)]

theorem claim_C3_witness :
    wLoss.sig.varargs = false ∧ wLoss._checked = false ∧
    "x" ∈ wOut3.map Prod.fst ∧ memKey wTgt3 "x" = true ∧
    (wLoss.call wOut3 wTgt3 false).1 =
      .error (.checkError
        { missing := [], unused := [], duplicated := ["x"],
          required := [], all_needed := [] }) := by
  refine ⟨rfl, rfl, by decide, by decide, ?_⟩
  have h := claim_C3_duplicated_raises wLoss wOut3 wTgt3 false rfl rfl "x"
    (by decide) (by decide)
  rw [h.1]
  rfl

def wOut2 : Dict Val := [("z", Val.vint 1)]

def wTgt2 : Dict Val := [("target", Val.tensor [])]

theorem claim_C2_witness :
    wLoss.sig.varargs = false ∧ wLoss._checked = false ∧
    "pred" ∈ wLoss.sig.args ∧
    memKey (mergeDicts wOut2 wTgt2) ((dlookup wLoss.param_map "pred").getD "pred") = false ∧
    (wLoss.call wOut2 wTgt2 false).1 =
      .error (.checkError
        { missing := ["pred"], unused := [], duplicated := [],
          required := [], all_needed := [] }) ∧
    (wLoss.call wOut2 wTgt2 false).2._checked = false := by
  have h := claim_C2_missing_raises wLoss wOut2 wTgt2 false rfl rfl "pred"
    (by decide) (by decide)
  refine ⟨rfl, rfl, by decide, by decide, ?_, h.2.2⟩
  rw [h.1]
  rfl

def wOut4 : Dict Val := [("output", Val.tensor [])]

def wTgt4 : Dict Val := [("target", Val.tensor [])]

theorem claim_C4_witness :
    wLoss.sig.varargs = false ∧ checkedAtCall wLoss false = false ∧
    dlookup (wLoss.call wOut4 wTgt4 false).2.param_map "pred" = some "output" ∧
    dlookup (wLoss.call wOut4 wTgt4 false).2.param_map "target" = some "target" ∧
    dlookup (wLoss.call wOut4 wTgt4 false).2.param_map "reduce" = some "reduce" := by
  have h := claim_C4_param_map_extension wLoss wOut4 wTgt4 false rfl rfl
  refine ⟨rfl, rfl, ?_, ?_, ?_⟩
  · have := h.2 "pred" (by decide)
    rw [this]
    rfl
  · have := h.1 "target" (Or.inl (by decide))
    rw [this]
    rfl
  · have := h.1 "reduce" (Or.inr (by decide))
    rw [this]
    rfl

/-- A `LossBase` whose `get_loss` takes no parameters and returns the plain
Python int 3 (as `NewLoss(lambda: 3)` would). -/
def cexLoss1 : LossBase :=
  { param_map := [], _checked := false,
    sig := { args := [], defaults := none, varargs := false },
    fn := fun _ => Val.vint 3 }

/-- Claim C1 counterexample: on `cexLoss1` with empty dictionaries no
missing or duplicated key is detected and `get_loss` produces the value 3,
yet `__call__` does not return that value — it raises `RuntimeError`
because the value is not a zero-dimensional tensor. -/
theorem claim_C1_counterexample :
    callDuplicated cexLoss1 [] [] false = [] ∧
    callMissing cexLoss1 [] [] false = [] ∧
    cexLoss1.fn (resolveArgs (callParamMap cexLoss1 false)
      (mergeDicts [] []) cexLoss1.sig) = Val.vint 3 ∧
    (cexLoss1.call [] [] false).1 ≠ .ok (Val.vint 3) ∧
    (cexLoss1.call [] [] false).1 =
      .error (.runtimeError "loss ERROR: loss except a torch.Tensor but get another type") := by
  refine ⟨rfl, rfl, rfl, ?_, rfl⟩
  intro hcontra
  have h2 : (cexLoss1.call [] [] false).1 =
      .error (.runtimeError "loss ERROR: loss except a torch.Tensor but get another type") := rfl
  rw [h2] at hcontra
  cases hcontra

/-- Claim C1 (amended): on a call where no missing or duplicated keys are
detected, `__call__` invokes `get_loss` with keyword arguments resolved
through `param_map` — each declared formal parameter `p` receives the value
stored under the name `param_map[p]` in the merged dictionary — and the
value produced by `get_loss` is returned provided it is a zero-dimensional
tensor (otherwise `RuntimeError` is raised, per the scalar check). -/
theorem claim_C1_resolution (L : LossBase)
    (output_dict target_dict : Dict Val) (force_check : Bool)
    (hv : L.sig.varargs = false)
    (hd : callDuplicated L output_dict target_dict force_check = [])
    (hm : callMissing L output_dict target_dict force_check = []) :
    (∀ p, p ∈ L.sig.args ∨ p ∈ defaultNames L.sig → ∀ v,
      dlookup (mergeDicts output_dict target_dict)
        ((dlookup (callParamMap L force_check) p).getD p) = some v →
      dlookup (resolveArgs (callParamMap L force_check)
        (mergeDicts output_dict target_dict) L.sig) p = some v) ∧
    (L.call output_dict target_dict force_check).1 =
      checkLossResult (L.fn (resolveArgs (callParamMap L force_check)
        (mergeDicts output_dict target_dict) L.sig)) ∧
    (isScalarTensor (L.fn (resolveArgs (callParamMap L force_check)
        (mergeDicts output_dict target_dict) L.sig)) = true →
      (L.call output_dict target_dict force_check).1 =
        .ok (L.fn (resolveArgs (callParamMap L force_check)
          (mergeDicts output_dict target_dict) L.sig))) := by
  have hchar := LossBase.call_of_check_success L output_dict target_dict
    force_check hv hd hm
  refine ⟨?_, ?_, ?_⟩
  · intro p hp v hval
    exact dlookup_resolveArgs_of_mem L.sig _ _ p v hp hval
  · rw [hchar]
  · intro hscal
    rw [hchar]
    show checkLossResult _ = _
    rw [checkLossResult, if_pos hscal]

theorem claim_C1_witness :
    wLoss.sig.varargs = false ∧
    callDuplicated wLoss wOut4 wTgt4 false = [] ∧
    callMissing wLoss wOut4 wTgt4 false = [] ∧
    dlookup (resolveArgs (callParamMap wLoss false) (mergeDicts wOut4 wTgt4)
      wLoss.sig) "pred" = some (Val.tensor []) ∧
    (wLoss.call wOut4 wTgt4 false).1 = .ok (Val.tensor []) := by
  have h := claim_C1_resolution wLoss wOut4 wTgt4 false rfl rfl rfl
  refine ⟨rfl, rfl, rfl, ?_, ?_⟩
  · exact h.1 "pred" (Or.inl (by decide)) (Val.tensor []) (by decide)
  · rw [h.2.1]
    rfl

/-- Claim C7: `LossBase.__call__` returns the value produced by `get_loss`
only when it is a tensor of zero dimensions; for every other result it
raises `RuntimeError` instead of returning. -/
theorem claim_C7_scalar_only (L : LossBase)
    (output_dict target_dict : Dict Val) (force_check : Bool)
    (hv : L.sig.varargs = false)
    (hd : callDuplicated L output_dict target_dict force_check = [])
    (hm : callMissing L output_dict target_dict force_check = []) :
    (∀ v, (L.call output_dict target_dict force_check).1 = .ok v →
      isScalarTensor v = true ∧
        v = L.fn (resolveArgs (callParamMap L force_check)
          (mergeDicts output_dict target_dict) L.sig)) ∧
    (isScalarTensor (L.fn (resolveArgs (callParamMap L force_check)
        (mergeDicts output_dict target_dict) L.sig)) = false →
      ∃ msg, (L.call output_dict target_dict force_check).1 =
        .error (.runtimeError msg)) := by
  have hchar := LossBase.call_of_check_success L output_dict target_dict
    force_check hv hd hm
  have h1 : (L.call output_dict target_dict force_check).1 =
      checkLossResult (L.fn (resolveArgs (callParamMap L force_check)
        (mergeDicts output_dict target_dict) L.sig)) := by
    rw [hchar]
  constructor
  · intro v hok
    rw [h1] at hok
    unfold checkLossResult at hok
    by_cases hscal : isScalarTensor (L.fn (resolveArgs (callParamMap L force_check)
        (mergeDicts output_dict target_dict) L.sig)) = true
    · rw [if_pos hscal] at hok
      cases hok
      exact ⟨hscal, rfl⟩
    · rw [if_neg hscal] at hok
      by_cases ht : isTensor (L.fn (resolveArgs (callParamMap L force_check)
          (mergeDicts output_dict target_dict) L.sig)) = true
      · simp [ht] at hok
      · simp [ht] at hok
  · intro hscal
    by_cases ht : isTensor (L.fn (resolveArgs (callParamMap L force_check)
        (mergeDicts output_dict target_dict) L.sig)) = true
    · exact ⟨"loss ERROR: the size of loss except torch.Size of nothing",
        by rw [h1]; simp [checkLossResult, hscal, ht]⟩
    · exact ⟨"loss ERROR: loss except a torch.Tensor but get another type",
        by rw [h1]; simp [checkLossResult, hscal, ht]⟩

/-- A `LossBase` whose `get_loss` returns a one-dimensional tensor. -/
def wLoss7 : LossBase :=
  { param_map := [], _checked := false,
    sig := { args := ["pred"], defaults := none, varargs := false },
    fn := fun _ => Val.tensor [2] }

def wOut7 : Dict Val := [("pred", Val.tensor [2])]

theorem claim_C7_witness :
    wLoss7.sig.varargs = false ∧
    callDuplicated wLoss7 wOut7 [] false = [] ∧
    callMissing wLoss7 wOut7 [] false = [] ∧
    (∃ msg, (wLoss7.call wOut7 [] false).1 = .error (.runtimeError msg)) := by
  have h := claim_C7_scalar_only wLoss7 wOut7 [] false rfl rfl rfl
  exact ⟨rfl, rfl, rfl, h.2 rfl⟩

theorem checkLossResult_ne_checkError (loss : Val) (cr : CheckRes) :
    checkLossResult loss ≠ .error (.checkError cr) := by
  unfold checkLossResult
  by_cases hscal : isScalarTensor loss = true
  · simp [hscal]
  · by_cases ht : isTensor loss = true
    · simp [hscal, ht]
    · simp [hscal, ht]

theorem LossBase.call_success_shape (L : LossBase)
    (output_dict target_dict : Dict Val) (force_check : Bool) (v : Val)
    (hv : L.sig.varargs = false)
    (hok : (L.call output_dict target_dict force_check).1 = .ok v) :
    L.call output_dict target_dict force_check =
      (checkLossResult (L.fn (resolveArgs (callParamMap L force_check)
          (mergeDicts output_dict target_dict) L.sig)),
       { L with param_map := callParamMap L force_check, _checked := true }) := by
  by_cases hcond : 0 < (callDuplicated L output_dict target_dict force_check).length ∨
      0 < (callMissing L output_dict target_dict force_check).length
  · exfalso
    rw [LossBase.call_of_check_failure L output_dict target_dict force_check hv hcond] at hok
    cases hok
  · push_neg at hcond
    exact LossBase.call_of_check_success L output_dict target_dict force_check hv
      (List.length_eq_zero.mp (Nat.eq_zero_of_not_pos
        (by intro hh; exact absurd hh (by simpa using hcond.1))))
      (List.length_eq_zero.mp (Nat.eq_zero_of_not_pos
        (by intro hh; exact absurd hh (by simpa using hcond.2))))

/-- Claim C8: after a `__call__` that returns normally the `_checked` flag
is true; a later call on the returned state with `force_check = False`
skips both detections entirely — it cannot raise `CheckError`, and a key
shared by the two dictionaries silently resolves to the `target_dict`
value in the merged dictionary — while `force_check = True` re-enables the
detection. -/
theorem claim_C8_checked_skip (L L2 : LossBase)
    (output_dict target_dict o2 t2 : Dict Val) (force_check : Bool) (v : Val)
    (hv : L.sig.varargs = false)
    (hok : (L.call output_dict target_dict force_check).1 = .ok v)
    (h2 : L2 = (L.call output_dict target_dict force_check).2)
    (hnd : nodupKeys t2) :
    L2._checked = true ∧
    callDuplicated L2 o2 t2 false = [] ∧
    callMissing L2 o2 t2 false = [] ∧
    (∀ cr, (L2.call o2 t2 false).1 ≠ .error (.checkError cr)) ∧
    (∀ k, memKey t2 k = true →
      dlookup (mergeDicts o2 t2) k = dlookup t2 k) ∧
    (∀ k0, k0 ∈ o2.map Prod.fst → memKey t2 k0 = true →
      (L2.call o2 t2 true).1 = .error (.checkError
        { missing := callMissing L2 o2 t2 true, unused := [],
          duplicated := duplicatedKeys o2 t2,
          required := [], all_needed := [] })) := by
  have hshape := LossBase.call_success_shape L output_dict target_dict
    force_check v hv hok
  have hchk : L2._checked = true := by rw [h2, hshape]
  have hsig : L2.sig = L.sig := by rw [h2, hshape]
  have hv2 : L2.sig.varargs = false := by rw [hsig]; exact hv
  have hca : checkedAtCall L2 false = true := by
    simp [checkedAtCall, hchk]
  have hd2 : callDuplicated L2 o2 t2 false = [] := by
    simp [callDuplicated, hca]
  have hm2 : callMissing L2 o2 t2 false = [] := by
    simp [callMissing, hca]
  refine ⟨hchk, hd2, hm2, ?_, ?_, ?_⟩
  · intro cr
    rw [LossBase.call_of_check_success L2 o2 t2 false hv2 hd2 hm2]
    exact checkLossResult_ne_checkError _ cr
  · intro k hk
    unfold mergeDicts
    rw [dlookup_updAll, lastVal_eq_dlookup_of_nodup t2 k hnd]
    obtain ⟨w, hw⟩ := Option.isSome_iff_exists.mp hk
    rw [hw]
  · intro k0 hk0 ht0
    have hcaT : checkedAtCall L2 true = false := by
      simp [checkedAtCall]
    have hdT : callDuplicated L2 o2 t2 true = duplicatedKeys o2 t2 := by
      simp [callDuplicated, hcaT]
    have hk0m : k0 ∈ duplicatedKeys o2 t2 :=
      (mem_duplicatedKeys _ _ _).mpr ⟨hk0, ht0⟩
    have hpos : 0 < (callDuplicated L2 o2 t2 true).length := by
      rw [hdT]
      exact List.length_pos.mpr (List.ne_nil_of_mem hk0m)
    rw [LossBase.call_of_check_failure L2 o2 t2 true hv2 (Or.inl hpos), hdT]

def wOut8 : Dict Val := [("output", Val.vint 1)]

def wTgt8 : Dict Val := [("output", Val.vint 2), ("target", Val.tensor [])]

theorem claim_C8_witness :
    (wLoss.call wOut4 wTgt4 false).1 = .ok (Val.tensor []) ∧
    nodupKeys wTgt8 ∧
    (wLoss.call wOut4 wTgt4 false).2._checked = true ∧
    callDuplicated (wLoss.call wOut4 wTgt4 false).2 wOut8 wTgt8 false = [] ∧
    dlookup (mergeDicts wOut8 wTgt8) "output" = dlookup wTgt8 "output" ∧
    ((wLoss.call wOut4 wTgt4 false).2.call wOut8 wTgt8 true).1 =
      .error (.checkError
        { missing := callMissing (wLoss.call wOut4 wTgt4 false).2 wOut8 wTgt8 true,
          unused := [],
          duplicated := duplicatedKeys wOut8 wTgt8,
          required := [], all_needed := [] }) := by
  have h := claim_C8_checked_skip wLoss ((wLoss.call wOut4 wTgt4 false).2)
    wOut4 wTgt4 wOut8 wTgt8 false (Val.tensor []) rfl rfl rfl
    (by unfold nodupKeys; decide)
  exact ⟨rfl, by unfold nodupKeys; decide, h.1, h.2.1, h.2.2.2.2.1 "output" (by decide),
    h.2.2.2.2.2 "output" (by decide) (by decide)⟩

/-- The state of a `LossInForward` object (`losses.py` lines 126-131). -/
structure LossInForward where
  loss_key : String

/-- `LossInForward.get_loss(**kwargs)` (`losses.py` lines 133-141): raise
`CheckError` when `loss_key` is absent from the keyword arguments;
otherwise fall off the end of the function body, i.e. return Python
`None`. -/
def LossInForward.get_loss (lif : LossInForward) (kwargs : Dict Val) :
    Except PyErr Val :=
  if memKey kwargs lif.loss_key then .ok Val.vnone
  else .error (.checkError
    { missing := [lif.loss_key], unused := [], duplicated := [],
      required := [], all_needed := [], varargsF := [] })

/-- `LossInForward.__call__` (`losses.py` lines 143-152): call
`get_loss(**output_dict)` and apply the scalar-tensor check, raising
`TypeError` for a non-tensor result and `RuntimeError` for a tensor of
nonzero dimension. -/
def LossInForward.call (lif : LossInForward)
    (output_dict predict_dict : Dict Val) (force_check : Bool) :
    Except PyErr Val :=
  match lif.get_loss output_dict with
  | .error e => .error e
  | .ok loss =>
    if isScalarTensor loss then .ok loss
    else if !(isTensor loss) then
      .error (.typeError "loss ERROR: loss except a torch.Tensor but got another type")
    else
      .error (.runtimeError "loss ERROR: the size of loss except torch.Size of nothing")

/-- Claim C9: `LossInForward.__call__` never returns a loss value: when
`loss_key` is absent from `output_dict`, `get_loss` raises `CheckError`
(which propagates); otherwise `get_loss` falls off the end returning
`None`, and `__call__` raises `TypeError` on that `None` result. -/
theorem claim_C9_loss_in_forward_never_returns (lif : LossInForward)
    (output_dict predict_dict : Dict Val) (force_check : Bool) :
    lif.call output_dict predict_dict force_check =
      (if memKey output_dict lif.loss_key then
        .error (.typeError "loss ERROR: loss except a torch.Tensor but got another type")
      else
        .error (.checkError
          { missing := [lif.loss_key], unused := [], duplicated := [],
            required := [], all_needed := [], varargsF := [] })) ∧
    (∀ v, lif.call output_dict predict_dict force_check ≠ .ok v) := by
  have hmain : lif.call output_dict predict_dict force_check =
      (if memKey output_dict lif.loss_key then
        .error (.typeError "loss ERROR: loss except a torch.Tensor but got another type")
      else
        .error (.checkError
          { missing := [lif.loss_key], unused := [], duplicated := [],
            required := [], all_needed := [], varargsF := [] })) := by
    unfold LossInForward.call LossInForward.get_loss
    by_cases h : memKey output_dict lif.loss_key = true
    · rw [if_pos h, if_pos h]
      rfl
    · have hb : ¬ (memKey output_dict lif.loss_key = true) := h
      rw [if_neg hb, if_neg hb]
  refine ⟨hmain, ?_⟩
  intro v hcontra
  rw [hmain] at hcontra
  by_cases h : memKey output_dict lif.loss_key = true
  · rw [if_pos h] at hcontra
    cases hcontra
  · rw [if_neg h] at hcontra
    cases hcontra

theorem claim_C9_witness :
    (LossInForward.mk "loss").call [("loss", Val.vnone)] [] false =
      .error (.typeError "loss ERROR: loss except a torch.Tensor but got another type") ∧
    (LossInForward.mk "loss").call [("x", Val.vint 0)] [] false =
      .error (.checkError
        { missing := ["loss"], unused := [], duplicated := [],
          required := [], all_needed := [], varargsF := [] }) := by
  constructor
  · rw [(claim_C9_loss_in_forward_never_returns (LossInForward.mk "loss")
      [("loss", Val.vnone)] [] false).1]
    rfl
  · rw [(claim_C9_loss_in_forward_never_returns (LossInForward.mk "loss")
      [("x", Val.vint 0)] [] false).1]
    rfl

/-- The type of a pre-processing function: it takes `predict`, `truth` and
the extra keyword arguments and returns the transformed pair. -/
abbrev PreFun : Type := Val → Val → Dict Val → Val × Val

/-- `squash(predict, truth, **kwargs)` (`losses.py` lines 165-174): reshape
both tensors with `view`; the torch reshapes themselves are uninterpreted
(`Val.ext` terms), the function has no branches. -/
def squash (predict truth : Val) (kwargs : Dict Val) : Val × Val :=
  (.ext "squash.view.predict" predict .vnone, .ext "squash.view.truth" truth .vnone)

/-- `unpad(predict, truth, **kwargs)` (`losses.py` lines 177-196): return
the pair unchanged when `kwargs.get("lens")` is `None` (absent key or an
explicit `None` value), otherwise apply `pack_padded_sequence`
(uninterpreted) to both members. -/
def unpad (predict truth : Val) (kwargs : Dict Val) : Val × Val :=
  match dlookup kwargs "lens" with
  | none => (predict, truth)
  | some Val.vnone => (predict, truth)
  | some lens =>
    (.ext "unpad.pack_padded.predict" predict lens,
     .ext "unpad.pack_padded.truth" truth lens)

/-- `make_mask(lens, tar_len)` (`losses.py` lines 243-255): pure torch,
uninterpreted. -/
def make_mask (lens : Val) (tar_len : Val) : Val :=
  .ext "make_mask" lens tar_len

/-- `mask(predict, truth, **kwargs)` (`losses.py` lines 218-240): return
the pair unchanged when `kwargs.get("mask")` is `None`, otherwise squash
both members and apply `masked_select` (uninterpreted). -/
def mask (predict truth : Val) (kwargs : Dict Val) : Val × Val :=
  match dlookup kwargs "mask" with
  | none => (predict, truth)
  | some Val.vnone => (predict, truth)
  | some m =>
    let pt := squash predict truth []
    (.ext "mask.masked_select.predict" pt.1 m,
     .ext "mask.masked_select.truth" pt.2 m)

/-- `unpad_mask(predict, truth, **kwargs)` (`losses.py` lines 199-215):
return the pair unchanged when `kwargs.get("lens")` is `None`, otherwise
call `mask` with the mask generated by `make_mask(lens, truth.size()[1])`
(the size access is uninterpreted). -/
def unpad_mask (predict truth : Val) (kwargs : Dict Val) : Val × Val :=
  match dlookup kwargs "lens" with
  | none => (predict, truth)
  | some Val.vnone => (predict, truth)
  | some lens =>
    mask predict truth [("mask", make_mask lens (.ext "size1" truth .vnone))]

/-- The string-to-function table `method_dict` (`losses.py` lines 259-264). -/
def method_dict : Dict PreFun :=
  [("squash", squash), ("unpad", unpad), ("unpad_mask", unpad_mask),
   ("mask", mask)]

/-- The argument passed to `Loss.add_pre_pro` / the `pre_pro` list of
`Loss.__init__`.  Python distinguishes four relevant cases: a callable
(never hashed, since `callable(func)` is tested first); a string; any
other hashable value such as `None` or an int (for which `dict.get`
returns `None`); and a non-callable unhashable value such as a list or a
dict, on which `method_dict.get(func)` raises
`TypeError: unhashable type`. -/
inductive PreProArg where
  | func (g : PreFun)
  | str (s : String)
  | other
  | unhashable

/-- The state of a `Loss` object (`losses.py` lines 288-316): the
instantiated torch loss function (a black-box binary function) and the
pre-processing pipeline, whose entries are functions or Python `None`. -/
structure Loss where
  _loss : Val → Val → Val
  pre_pro : List (Option PreFun)

/-- The list comprehension of `Loss.__init__` line 316:
`[f if callable(f) else method_dict.get(f) for f in pre_pro]`.
A non-callable unhashable entry makes `method_dict.get` raise
`TypeError`, which propagates out of the comprehension. -/
def initPrePro : List PreProArg → Except PyErr (List (Option PreFun))
  | [] => .ok []
  | .unhashable :: _ =>
    .error (.typeError "unhashable type: cannot be used as a dict key")
  | .func g :: rest =>
    match initPrePro rest with
    | .error e => .error e
    | .ok fs => .ok (some g :: fs)
  | .str s :: rest =>
    match initPrePro rest with
    | .error e => .error e
    | .ok fs => .ok (dlookup method_dict s :: fs)
  | .other :: rest =>
    match initPrePro rest with
    | .error e => .error e
    | .ok fs => .ok (none :: fs)

/-- `Loss.add_pre_pro(func)` (`losses.py` lines 318-328): a non-callable
argument is looked up in `method_dict` (line 325); when the lookup yields
`None` the method returns without touching the object, otherwise the
(resolved) function is appended to `pre_pro`.  A non-callable unhashable
argument makes `method_dict.get(func)` itself raise
`TypeError: unhashable type`. -/
def Loss.add_pre_pro (L : Loss) (func : PreProArg) : Except PyErr Loss :=
  match func with
  | .func g => .ok { L with pre_pro := L.pre_pro ++ [some g] }
  | .str s =>
    match dlookup method_dict s with
    | none => .ok L
    | some g => .ok { L with pre_pro := L.pre_pro ++ [some g] }
  | .other => .ok L
  | .unhashable =>
    .error (.typeError "unhashable type: cannot be used as a dict key")

/-- `Loss.__call__(predict, truth, **kwargs)` (`losses.py` lines 350-364):
run the pair through the `pre_pro` entries in list order, skipping `None`
entries, then apply the stored torch loss function to the result. -/
def Loss.call (L : Loss) (predict truth : Val) (kwargs : Dict Val) : Val :=
  let pt := L.pre_pro.foldl
    (fun pt f =>
      match f with
      | none => pt
      | some g => g pt.1 pt.2 kwargs) (predict, truth)
  L._loss pt.1 pt.2

/-- The pipeline as the spec words it: the transformations applied one
after another in order of addition, each call turning the pair
`(predict, truth)` into the next pair, with `None` entries skipped. -/
def applyPrePro : List (Option PreFun) → Val → Val → Dict Val → Val × Val
  | [], predict, truth, _ => (predict, truth)
  | none :: rest, predict, truth, kwargs => applyPrePro rest predict truth kwargs
  | some g :: rest, predict, truth, kwargs =>
    let pt := g predict truth kwargs
    applyPrePro rest pt.1 pt.2 kwargs

/-- Claim C5: `Loss.__call__(predict, truth, **kwargs)` applies the
functions stored in `pre_pro` one after another in their order of
addition — each call transforming the pair `(predict, truth)` into the
next pair, with `None` entries skipped — and only after the last
transformation invokes the selected torch loss function on the resulting
pair, whose result it returns. -/
theorem claim_C5_pre_pro_pipeline (L : Loss) (predict truth : Val)
    (kwargs : Dict Val) :
    L.call predict truth kwargs =
      L._loss (applyPrePro L.pre_pro predict truth kwargs).1
        (applyPrePro L.pre_pro predict truth kwargs).2 := by
  have h : ∀ (fs : List (Option PreFun)) (p t : Val),
      List.foldl
        (fun pt f =>
          match f with
          | none => pt
          | some g => g pt.1 pt.2 kwargs) (p, t) fs =
      applyPrePro fs p t kwargs := by
    intro fs
    induction fs with
    | nil => intro p t; rfl
    | cons f rest ih =>
      intro p t
      cases f with
      | none => exact ih p t
      | some g => exact ih (g p t kwargs).1 (g p t kwargs).2
  unfold Loss.call
  rw [h L.pre_pro predict truth]

def wLoss10 : Loss := { _loss := fun p _ => p, pre_pro := [some squash] }

/-- Claim C10 counterexample: a non-callable unhashable argument (a Python
list, say) is neither a callable nor one of the four strings, yet
`add_pre_pro` does not return with the object unchanged — line 325
`method_dict.get(func)` raises `TypeError: unhashable type`. -/
theorem claim_C10_counterexample :
    wLoss10.add_pre_pro .unhashable =
      .error (.typeError "unhashable type: cannot be used as a dict key") ∧
    wLoss10.add_pre_pro PreProArg.unhashable ≠ .ok wLoss10 := by
  refine ⟨rfl, ?_⟩
  intro hcontra
  have h2 : wLoss10.add_pre_pro PreProArg.unhashable =
      .error (.typeError "unhashable type: cannot be used as a dict key") := rfl
  rw [h2] at hcontra
  cases hcontra

/-- Claim C10 (amended): `Loss.add_pre_pro(func)` appends exactly one
element to `pre_pro` when `func` is callable or one of the four
predefined strings (the string being replaced by the corresponding
predefined function); for every other hashable argument it returns
leaving `pre_pro` and the rest of the `Loss` object unchanged, without
raising; a non-callable unhashable argument instead makes
`method_dict.get` raise `TypeError`. -/
theorem claim_C10_add_pre_pro_amended (L : Loss) :
    (∀ g, L.add_pre_pro (.func g) =
      .ok { L with pre_pro := L.pre_pro ++ [some g] }) ∧
    (∀ s g, dlookup method_dict s = some g →
      L.add_pre_pro (.str s) = .ok { L with pre_pro := L.pre_pro ++ [some g] }) ∧
    (∀ s, dlookup method_dict s = none → L.add_pre_pro (.str s) = .ok L) ∧
    (L.add_pre_pro .other = .ok L) ∧
    (∃ msg, L.add_pre_pro .unhashable = .error (.typeError msg)) ∧
    (∀ s, (dlookup method_dict s).isSome = true ↔
      s = "squash" ∨ s = "unpad" ∨ s = "unpad_mask" ∨ s = "mask") := by
  refine ⟨fun g => rfl, ?_, ?_, rfl,
    ⟨"unhashable type: cannot be used as a dict key", rfl⟩, ?_⟩
  · intro s g hg
    simp only [Loss.add_pre_pro, hg]
  · intro s hs
    simp only [Loss.add_pre_pro, hs]
  · intro s
    constructor
    · intro h
      unfold method_dict at h
      simp only [dlookup] at h
      by_cases h1 : "squash" = s
      · exact Or.inl h1.symm
      rw [if_neg h1] at h
      by_cases h2 : "unpad" = s
      · exact Or.inr (Or.inl h2.symm)
      rw [if_neg h2] at h
      by_cases h3 : "unpad_mask" = s
      · exact Or.inr (Or.inr (Or.inl h3.symm))
      rw [if_neg h3] at h
      by_cases h4 : "mask" = s
      · exact Or.inr (Or.inr (Or.inr h4.symm))
      rw [if_neg h4] at h
      cases h
    · rintro (rfl | rfl | rfl | rfl) <;> rfl

theorem claim_C10_amended_witness :
    dlookup method_dict "mask" = some mask ∧
    wLoss10.add_pre_pro (.str "mask") =
      .ok { wLoss10 with pre_pro := [some squash, some mask] } ∧
    wLoss10.add_pre_pro .other = .ok wLoss10 ∧
    dlookup method_dict "bogus" = none ∧
    wLoss10.add_pre_pro (.str "bogus") = .ok wLoss10 ∧
    (∃ msg, wLoss10.add_pre_pro .unhashable = .error (.typeError msg)) := by
  have h := claim_C10_add_pre_pro_amended wLoss10
  exact ⟨rfl, h.2.1 "mask" mask rfl, h.2.2.2.1, rfl, h.2.2.1 "bogus" rfl,
    h.2.2.2.2.1⟩

/-- The hard-coded table `loss_function_name` (`losses.py` lines 266-285):
keys are the lowercased torch class names, values identify the torch
constructor stored there (the constructors themselves are external and
uninterpreted, so they are represented by their names). -/
def loss_function_name : Dict String :=
  [("l1loss", "torch.nn.L1Loss"),
   ("bceloss", "torch.nn.BCELoss"),
   ("mseloss", "torch.nn.MSELoss"),
   ("nllloss", "torch.nn.NLLLoss"),
   ("kldivloss", "torch.nn.KLDivLoss"),
   ("nllloss2dloss", "torch.nn.NLLLoss2d"),
   ("smoothl1loss", "torch.nn.SmoothL1Loss"),
   ("softmarginloss", "torch.nn.SoftMarginLoss"),
   ("poissonnllloss", "torch.nn.PoissonNLLLoss"),
   ("multimarginloss", "torch.nn.MultiMarginLoss"),
   ("crossentropyloss", "torch.nn.CrossEntropyLoss"),
   ("bcewithlogitsloss", "torch.nn.BCEWithLogitsLoss"),
   ("marginrankingloss", "torch.nn.MarginRankingLoss"),
   ("tripletmarginloss", "torch.nn.TripletMarginLoss"),
   ("hingeembeddingloss", "torch.nn.HingeEmbeddingLoss"),
   ("cosineembeddingloss", "torch.nn.CosineEmbeddingLoss"),
   ("multilabelmarginloss", "torch.nn.MultiLabelMarginLoss"),
   ("multilabelsoftmarginloss", "torch.nn.MultiLabelSoftMarginLoss")]

/-- Lines 338-339 of `losses.py`:
`loss_name.strip().lower()` followed by `"".join(loss_name.split("_"))`,
i.e. strip surrounding whitespace, lowercase, and delete every underscore
(working on the character list of the string). -/
def normalizedLossName (loss_name : String) : List Char :=
  let l := loss_name.data.dropWhile Char.isWhitespace
  let l := (l.reverse.dropWhile Char.isWhitespace).reverse
  (l.map Char.toLower).filter (fun c => c ≠ '_')

/-- `Loss._get_loss(loss_name, **kwargs)` (`losses.py` lines 330-343):
normalise the name, append `"loss"` when `len(loss_name) < 4 or
loss_name[-4:] != "loss"`, and look the result up in the table
(`None` here models the `KeyError` of a failed subscript; the
`**kwargs` are forwarded to the external constructor and play no part in
the lookup). -/
def Loss._get_loss (loss_name : String) : Option String :=
  let l := normalizedLossName loss_name
  let l := if l.length < 4 ∨ l.drop (l.length - 4) ≠ "loss".data then
    l ++ "loss".data else l
  dlookup loss_function_name (String.mk l)

/-- The lookup key as the spec words it: `"loss"` is appended exactly when
the normalised name does not already end in `"loss"` (a name shorter than
four characters never does). -/
def specLossKey (loss_name : String) : String :=
  let l := normalizedLossName loss_name
  if "loss".data <:+ l then String.mk l else String.mk (l ++ "loss".data)

theorem dlookup_isSome_iff_mem {α : Type} (l : Dict α) (k : String) :
    (dlookup l k).isSome = true ↔ k ∈ l.map Prod.fst := by
  induction l with
  | nil => simp [dlookup]
  | cons hd t ih =>
    obtain ⟨a, b⟩ := hd
    simp only [dlookup, List.map_cons, List.mem_cons]
    by_cases h : a = k
    · simp [h]
    · rw [if_neg h]
      rw [ih]
      constructor
      · exact Or.inr
      · rintro (rfl | hm)
        · exact absurd rfl h
        · exact hm

theorem suffix_loss_iff (l : List Char) :
    "loss".data <:+ l ↔ 4 ≤ l.length ∧ l.drop (l.length - 4) = "loss".data := by
  constructor
  · intro h
    have hlen : 4 ≤ l.length := by
      have h1 := h.length_le
      simpa using h1
    refine ⟨hlen, ?_⟩
    have h2 := List.suffix_iff_eq_drop.mp h
    rw [show ("loss".data).length = 4 from rfl] at h2
    exact h2.symm
  · rintro ⟨hlen, hdrop⟩
    apply List.suffix_iff_eq_drop.mpr
    rw [show ("loss".data).length = 4 from rfl]
    exact hdrop.symm

/-- Claim C6: `Loss._get_loss` normalises the name by stripping surrounding
whitespace, lowercasing and deleting underscores, appends `"loss"` exactly
when the normalised name is shorter than four characters or does not
already end in `"loss"`, then looks the key up in the hard-coded
`loss_function_name` table; a key absent from the table makes the lookup
fail. -/
theorem claim_C6_get_loss_name (loss_name : String) :
    Loss._get_loss loss_name =
      dlookup loss_function_name (specLossKey loss_name) ∧
    ((Loss._get_loss loss_name).isNone = true ↔
      specLossKey loss_name ∉ loss_function_name.map Prod.fst) := by
  have hmain : Loss._get_loss loss_name =
      dlookup loss_function_name (specLossKey loss_name) := by
    unfold Loss._get_loss specLossKey
    dsimp only
    by_cases hsuf : "loss".data <:+ normalizedLossName loss_name
    · obtain ⟨hlen, hdrop⟩ := (suffix_loss_iff _).mp hsuf
      rw [if_pos hsuf, if_neg]
      push_neg
      exact ⟨by omega, hdrop⟩
    · rw [if_neg hsuf, if_pos]
      by_cases hlen : (normalizedLossName loss_name).length < 4
      · exact Or.inl hlen
      · refine Or.inr ?_
        intro hdrop
        exact hsuf ((suffix_loss_iff _).mpr ⟨by omega, hdrop⟩)
  refine ⟨hmain, ?_⟩
  rw [hmain]
  rw [Option.isNone_iff_eq_none]
  constructor
  · intro hnone hmem
    have := (dlookup_isSome_iff_mem loss_function_name (specLossKey loss_name)).mpr hmem
    rw [hnone] at this
    cases this
  · intro hmem
    cases hx : dlookup loss_function_name (specLossKey loss_name) with
    | none => rfl
    | some v =>
      exfalso
      apply hmem
      apply (dlookup_isSome_iff_mem loss_function_name (specLossKey loss_name)).mp
      rw [hx]
      rfl

theorem claim_C5_witness :
    wLoss10.call (Val.tensor [2, 3]) (Val.tensor [2]) [] =
      wLoss10._loss
        (applyPrePro wLoss10.pre_pro (Val.tensor [2, 3]) (Val.tensor [2]) []).1
        (applyPrePro wLoss10.pre_pro (Val.tensor [2, 3]) (Val.tensor [2]) []).2 :=
  claim_C5_pre_pro_pipeline wLoss10 (Val.tensor [2, 3]) (Val.tensor [2]) []

theorem claim_C6_witness :
    Loss._get_loss " Cross_Entropy " = some "torch.nn.CrossEntropyLoss" ∧
    Loss._get_loss "bogus" = none := by
  constructor
  · rw [(claim_C6_get_loss_name " Cross_Entropy ").1]
    decide
  · rw [(claim_C6_get_loss_name "bogus").1]
    decide
